import Mathlib

/-!
Verification of the enesa-automation-hub execution pipeline.

Shallow embedding, in Lean 4, of the run-lifecycle code of the repository:
the worker finalization and retry logic (`backend/app/workers/executor.py`),
the cron matcher and scheduler dedupe (`backend/app/services/scheduler_service.py`),
the run registry (`backend/app/services/run_service.py` and the
`/runs/{robot_id}/execute` endpoint), the log fan-out (`append_log`), and the
log-stream replay (`backend/app/api/v1/endpoints/ws_logs.py`).

Database tables are modelled as Lean lists, Python dicts as `String → Option String`
lookups, Python ints as `Int`/`Nat`, and fallible steps as explicit outcome types.
Statuses and trigger types are modelled as the strings the code stores
(`RunStatus.X.value` / `TriggerType.X.value`).
-/

namespace Enesa

/- Status strings stored in `Run.status` (`app/models/run.py`, `RunStatus`).
Modelled from the spec: the `CANCELED` member (spec §3, Run data model) is used by
`executor.py`, `runs.py` and the tests, but the snapshot of `models/run.py` is an
older revision that predates it; its string value follows the enum's
name-equals-value convention used by every other member. -/
namespace RunStatus

def PENDING : String := "PENDING"

def RUNNING : String := "RUNNING"

def SUCCESS : String := "SUCCESS"

def FAILED : String := "FAILED"

def CANCELED : String := "CANCELED"

end RunStatus

/- Trigger-type strings stored in `Run.trigger_type` (`app/models/scheduler.py`, `TriggerType`). -/
namespace TriggerType

def MANUAL : String := "MANUAL"

def SCHEDULED : String := "SCHEDULED"

def RETRY : String := "RETRY"

end TriggerType

/- Executable models of the Python string primitives the code uses
(`str.split`, `str.strip`, `str.lower`, `in`, `int(...)` on digit strings).
They operate on `List Char` by structural recursion so that every concrete
instance evaluates inside the kernel. -/
namespace Py

/-- Helper for `split`: accumulates the current piece (reversed). -/
def splitAux (sep : Char) : List Char → List Char → List (List Char)
  | [], acc => [acc.reverse]
  | c :: rest, acc =>
    if c = sep then acc.reverse :: splitAux sep rest []
    else splitAux sep rest (c :: acc)

/-- Python `s.split(sep)` for a one-character separator: splits at every
occurrence; `"".split(sep) = [""]`. -/
def split (sep : Char) (l : List Char) : List (List Char) := splitAux sep l []

/-- Python `s.strip()`: remove leading and trailing whitespace. -/
def strip (l : List Char) : List Char :=
  ((l.dropWhile Char.isWhitespace).reverse.dropWhile Char.isWhitespace).reverse

/-- Python `s.lower()` (ASCII suffices for the messages involved). -/
def lower (l : List Char) : List Char := l.map Char.toLower

/-- Python `sub in s` substring test. -/
def containsSub (sub l : List Char) : Bool := l.tails.any (fun t => sub.isPrefixOf t)

/-- Whether `int(s)` succeeds on a plain digit string (the only shape the code
feeds it after its regex/pattern checks). -/
def isDigits (l : List Char) : Bool := !l.isEmpty && l.all Char.isDigit

/-- Value of `int(s)` on a digit string. -/
def digitsToNat (l : List Char) : Nat :=
  l.foldl (fun acc c => 10 * acc + (c.toNat - 48)) 0

/-- Python `int(s)` on strings of digits: `none` models the `ValueError` raised
on any other shape (sign/whitespace forms do not occur at the guarded call
sites). -/
def pyInt (l : List Char) : Option Nat :=
  if isDigits l then some (digitsToNat l) else none

end Py

/-! ## C1 — terminal-status finalization (`process_run`, executor.py lines 375-388) -/

namespace Exec

/-- The fields of the `Run` row that the finalization block of `process_run`
assigns: the terminal status, the error message, and `canceled_at`. -/
structure FinalState where
  status : String
  error_message : Option String
  canceled_at : Option Int
  deriving DecidableEq, Repr

/-- Finalization block of `process_run` (executor.py lines 375-388), translated
branch by branch: `if canceled: ... elif return_code == 0 and not timed_out: ...
else: ...`.  `finishedAt` is the `finished_at` timestamp the code assigns to
`canceled_at` in the cancel branch. -/
def finalizeRun (canceled timedOut : Bool) (returnCode : Int) (finishedAt : Int) : FinalState :=
  if canceled then
    { status := RunStatus.CANCELED, error_message := none, canceled_at := some finishedAt }
  else if returnCode = 0 ∧ timedOut = false then
    { status := RunStatus.SUCCESS, error_message := none, canceled_at := none }
  else
    { status := RunStatus.FAILED
      error_message := some (if timedOut then "TIMEOUT" else s!"Process returned exit code {returnCode}")
      canceled_at := none }

/-- The finalization cascade exactly as the specification states it, in the
spec's case order: canceled, then timeout, then exit code 0, then failure. -/
def specFinalizeRun (canceled timedOut : Bool) (returnCode : Int) (finishedAt : Int) : FinalState :=
  if canceled then
    { status := RunStatus.CANCELED, error_message := none, canceled_at := some finishedAt }
  else if timedOut then
    { status := RunStatus.FAILED, error_message := some "TIMEOUT", canceled_at := none }
  else if returnCode = 0 then
    { status := RunStatus.SUCCESS, error_message := none, canceled_at := none }
  else
    { status := RunStatus.FAILED
      error_message := some s!"Process returned exit code {returnCode}"
      canceled_at := none }

/-! ## C2 — retry scheduling (`_schedule_retry_if_needed`, executor.py lines 472-527) -/

/-- The Run-row fields `_schedule_retry_if_needed` reads and copies.  Ids are
modelled as naturals. -/
structure RunRow where
  robot_id : Nat
  robot_version_id : Nat
  service_id : Option Nat
  schedule_id : Option Nat
  env_name : String
  trigger_type : String
  attempt : Nat
  parameters_json : Option String
  status : String
  queued_at : Nat
  triggered_by : Option Nat
  deriving DecidableEq, Repr

/-- The Schedule columns the retry logic reads (`app/models/scheduler.py`). -/
structure ScheduleRow where
  retry_count : Nat
  retry_backoff_seconds : Nat
  deriving DecidableEq, Repr

/-- The broker message `_schedule_retry_if_needed` pushes (executor.py lines
504-518), restricted to the fields the claim talks about. -/
structure RetryPayload where
  trigger_type : String
  attempt : Nat
  schedule_id : Option Nat
  service_id : Option Nat
  env_name : String
  parameters_json : Option String
  not_before_ts : Nat
  deriving DecidableEq, Repr

/-- The `Run(...)` constructed for the retry (executor.py lines 486-499):
same robot/version/service/schedule/env/parameters/triggered_by, trigger
`RETRY`, `attempt = run.attempt + 1`, status `PENDING`, `queued_at = utcnow()`. -/
def mkRetryRun (run : RunRow) (now : Nat) : RunRow :=
  { robot_id := run.robot_id
    robot_version_id := run.robot_version_id
    service_id := run.service_id
    schedule_id := run.schedule_id
    env_name := run.env_name
    trigger_type := TriggerType.RETRY
    attempt := run.attempt + 1
    parameters_json := run.parameters_json
    status := RunStatus.PENDING
    queued_at := now
    triggered_by := run.triggered_by }

/-- The retry broker message (executor.py lines 504-518):
`not_before_ts = time.time() + max(1, schedule.retry_backoff_seconds)`. -/
def mkRetryPayload (run : RunRow) (s : ScheduleRow) (now : Nat) : RetryPayload :=
  { trigger_type := TriggerType.RETRY
    attempt := run.attempt + 1
    schedule_id := run.schedule_id
    service_id := run.service_id
    env_name := run.env_name
    parameters_json := run.parameters_json
    not_before_ts := now + max 1 s.retry_backoff_seconds }

/-- `_schedule_retry_if_needed` (executor.py lines 472-527): no retry unless the
run finalized FAILED, a Schedule exists, and `run.attempt ≤ schedule.retry_count`;
otherwise persist the retry Run and push its broker message. -/
def scheduleRetryIfNeeded (run : RunRow) (schedule : Option ScheduleRow) (now : Nat) :
    Option (RunRow × RetryPayload) :=
  if run.status ≠ RunStatus.FAILED then none
  else
    match schedule with
    | none => none
    | some s =>
      if run.attempt > s.retry_count then none
      else some (mkRetryRun run now, mkRetryPayload run s now)

/-- The RETRY runs produced from `run` when every attempt finalizes FAILED: the
worst-case retry chain.  Each produced run re-enters `_schedule_retry_if_needed`
with status FAILED. -/
def retryChainAllFail (s : ScheduleRow) (now : Nat) (run : RunRow) : List RunRow :=
  if run.attempt ≤ s.retry_count then
    mkRetryRun run now ::
      retryChainAllFail s now { mkRetryRun run now with status := RunStatus.FAILED }
  else []
  termination_by s.retry_count + 1 - run.attempt
  decreasing_by simp [mkRetryRun]; omega

/-- The worst-case chain from a run with attempt `a` has `retry_count + 1 - a`
elements (truncated subtraction). -/
theorem retryChainAllFail_length (s : ScheduleRow) (now : Nat) (run : RunRow) :
    (retryChainAllFail s now run).length = s.retry_count + 1 - run.attempt := by
  generalize hd : s.retry_count + 1 - run.attempt = d
  induction d generalizing run with
  | zero =>
      rw [retryChainAllFail]
      have : ¬ run.attempt ≤ s.retry_count := by omega
      simp [this]
  | succ d ih =>
      rw [retryChainAllFail]
      have hle : run.attempt ≤ s.retry_count := by omega
      simp only [hle, if_true, List.length_cons]
      rw [ih]
      simp [mkRetryRun]
      omega

/-- Every run in the worst-case chain carries `trigger_type=RETRY` and the
root's `schedule_id`, `service_id`, `env_name` and `parameters_json`. -/
theorem retryChainAllFail_fields (s : ScheduleRow) (now : Nat) (run : RunRow) :
    ∀ r ∈ retryChainAllFail s now run,
      r.trigger_type = TriggerType.RETRY ∧ r.schedule_id = run.schedule_id
        ∧ r.service_id = run.service_id ∧ r.env_name = run.env_name
        ∧ r.parameters_json = run.parameters_json := by
  generalize hd : s.retry_count + 1 - run.attempt = d
  induction d generalizing run with
  | zero =>
      rw [retryChainAllFail]
      have : ¬ run.attempt ≤ s.retry_count := by omega
      simp [this]
  | succ d ih =>
      rw [retryChainAllFail]
      by_cases hle : run.attempt ≤ s.retry_count
      · simp only [hle, if_true]
        intro r hr
        rcases List.mem_cons.mp hr with h | h
        · subst h
          exact ⟨rfl, rfl, rfl, rfl, rfl⟩
        · have hmeas : s.retry_count + 1
              - ({ mkRetryRun run now with status := RunStatus.FAILED } : RunRow).attempt = d := by
            simp [mkRetryRun]
            omega
          have := ih _ hmeas r h
          simpa [mkRetryRun] using this
      · simp [hle]

/-- Attempt numbers along the worst-case chain are consecutive, starting one
above the root's. -/
theorem retryChainAllFail_attempts (s : ScheduleRow) (now : Nat) (run : RunRow) :
    ∀ (i : Nat) (r : RunRow), (retryChainAllFail s now run).get? i = some r →
      r.attempt = run.attempt + i + 1 := by
  generalize hd : s.retry_count + 1 - run.attempt = d
  induction d generalizing run with
  | zero =>
      intro i r hr
      rw [retryChainAllFail] at hr
      have : ¬ run.attempt ≤ s.retry_count := by omega
      simp [this] at hr
  | succ d ih =>
      intro i r hr
      rw [retryChainAllFail] at hr
      by_cases hle : run.attempt ≤ s.retry_count
      · simp only [hle, if_true] at hr
        have hmeas : s.retry_count + 1
            - ({ mkRetryRun run now with status := RunStatus.FAILED } : RunRow).attempt = d := by
          simp [mkRetryRun]
          omega
        cases i with
        | zero =>
            simp only [List.get?_cons_zero, Option.some.injEq] at hr
            subst hr
            simp [mkRetryRun]
        | succ i =>
            simp only [List.get?_cons_succ] at hr
            have := ih _ hmeas i r hr
            simp only [mkRetryRun] at this
            omega
      · simp [hle] at hr

/-! ## C10 — supervision loop timeout decision (`process_run`, executor.py lines 309, 333-367) -/

/-- What one iteration of the supervision loop observes: whether
`process.poll() is None` (still running), whether the ≥ 1-second cancel poll is
due and what `_is_cancel_requested` returned, and the elapsed wall-clock seconds
`now_monotonic - started_monotonic`. -/
structure LoopObs where
  processRunning : Bool
  cancelCheckDue : Bool
  cancelRequested : Bool
  elapsed : Int
  deriving DecidableEq, Repr

/-- The `canceled` / `timed_out` flags the supervision loop maintains. -/
structure SupFlags where
  canceled : Bool
  timedOut : Bool
  deriving DecidableEq, Repr

/-- One iteration of the supervision loop body (executor.py lines 348-364):
the cancel poll may set `canceled`; then `timed_out` is set when the process is
still alive, `canceled` is not set, `timeout_seconds > 0`, and the elapsed time
exceeds `timeout_seconds`.  (Setting either flag also triggers
`_terminate_process_tree`; the flag records that the termination fired.) -/
def superviseStep (timeoutSeconds : Int) (st : SupFlags) (o : LoopObs) : SupFlags :=
  let canceled := st.canceled || (o.processRunning && o.cancelCheckDue && o.cancelRequested)
  let timedOut := st.timedOut ||
    (!canceled && o.processRunning && decide (timeoutSeconds > 0) && decide (o.elapsed > timeoutSeconds))
  { canceled := canceled, timedOut := timedOut }

/-- The supervision loop over a whole run: fold of `superviseStep` over the
sequence of iterations, starting from `timed_out = False`, `canceled = False`
(executor.py lines 334-335). -/
def supervise (timeoutSeconds : Int) (obs : List LoopObs) : SupFlags :=
  obs.foldl (superviseStep timeoutSeconds) { canceled := false, timedOut := false }

/-- `timeout_seconds = schedule.timeout_seconds if schedule else 3600`
(executor.py line 309), keyed by the run's optional Schedule (its
`timeout_seconds` column). -/
def effectiveTimeout (scheduleTimeout : Option Int) : Int :=
  match scheduleTimeout with
  | some t => t
  | none => 3600

end Exec

end Enesa

namespace Enesa

/-- C2: a retry is created exactly when the run finalized FAILED, a Schedule
exists, and `attempt ≤ retry_count`; the retry carries `attempt = predecessor + 1`,
`trigger_type=RETRY`, the same schedule/service/env/parameters, and its broker
message has `not_before_ts = now + retry_backoff_seconds` (when the backoff is
≥ 1); a root run with `attempt = 1` therefore produces at most `retry_count`
RETRY runs even when every attempt fails, and CANCELED or SUCCESS runs are
never retried. -/
theorem c2_retry_chain_bound (s : Exec.ScheduleRow) (now : Nat) (root : Exec.RunRow)
    (hroot : root.attempt = 1) (hb : 1 ≤ s.retry_backoff_seconds) :
    (Exec.retryChainAllFail s now root).length ≤ s.retry_count
      ∧ (∀ r ∈ Exec.retryChainAllFail s now root,
          r.trigger_type = TriggerType.RETRY ∧ r.schedule_id = root.schedule_id
            ∧ r.service_id = root.service_id ∧ r.env_name = root.env_name
            ∧ r.parameters_json = root.parameters_json)
      ∧ (∀ (i : Nat) (r : Exec.RunRow),
          (Exec.retryChainAllFail s now root).get? i = some r → r.attempt = i + 2)
      ∧ (∀ (run : Exec.RunRow) (sched : Option Exec.ScheduleRow),
          (Exec.scheduleRetryIfNeeded run sched now).isSome
            ↔ run.status = RunStatus.FAILED
              ∧ ∃ sr, sched = some sr ∧ run.attempt ≤ sr.retry_count)
      ∧ (∀ (run r : Exec.RunRow) (p : Exec.RetryPayload),
          Exec.scheduleRetryIfNeeded run (some s) now = some (r, p) →
            r = Exec.mkRetryRun run now ∧ r.attempt = run.attempt + 1
              ∧ p.not_before_ts = now + s.retry_backoff_seconds)
      ∧ (∀ (run : Exec.RunRow) (sched : Option Exec.ScheduleRow),
          run.status = RunStatus.CANCELED ∨ run.status = RunStatus.SUCCESS →
            Exec.scheduleRetryIfNeeded run sched now = none) := by
  refine ⟨?_, ?_, ?_, ?_, ?_, ?_⟩
  · rw [Exec.retryChainAllFail_length, hroot]
    omega
  · exact Exec.retryChainAllFail_fields s now root
  · intro i r hr
    have := Exec.retryChainAllFail_attempts s now root i r hr
    omega
  · intro run sched
    unfold Exec.scheduleRetryIfNeeded
    by_cases hs : run.status = RunStatus.FAILED
    · cases sched with
      | none => simp [hs]
      | some sr =>
          by_cases hatt : run.attempt > sr.retry_count
          · simp [hs, hatt]
            try omega
          · simp [hs, hatt]
            try omega
    · simp [hs]
  · intro run r p hr
    unfold Exec.scheduleRetryIfNeeded at hr
    by_cases hs : run.status = RunStatus.FAILED
    · by_cases hatt : run.attempt > s.retry_count
      · simp [hs, hatt] at hr
      · simp [hs, hatt] at hr
        refine ⟨hr.1.symm, ?_, ?_⟩
        · rw [← hr.1]
          simp [Exec.mkRetryRun]
        · rw [← hr.2]
          simp [Exec.mkRetryPayload]
          omega
    · simp [hs] at hr
  · intro run sched hterm
    unfold Exec.scheduleRetryIfNeeded
    have hs : run.status ≠ RunStatus.FAILED := by
      rcases hterm with h | h <;> rw [h] <;> decide
    simp [hs]

/-- Witness for `c2_retry_chain_bound`: a schedule with `retry_count = 2`,
`retry_backoff_seconds = 1` and a root run at attempt 1 yields a chain of at
most 2 retries. -/
theorem c2_witness :
    ({ robot_id := 1, robot_version_id := 1, service_id := none, schedule_id := some 7,
       env_name := "PROD", trigger_type := "SCHEDULED", attempt := 1,
       parameters_json := none, status := "FAILED", queued_at := 0,
       triggered_by := none } : Exec.RunRow).attempt = 1
      ∧ (1 : Nat) ≤ ({ retry_count := 2, retry_backoff_seconds := 1 } : Exec.ScheduleRow).retry_backoff_seconds
      ∧ (Exec.retryChainAllFail { retry_count := 2, retry_backoff_seconds := 1 } 100
          { robot_id := 1, robot_version_id := 1, service_id := none, schedule_id := some 7,
            env_name := "PROD", trigger_type := "SCHEDULED", attempt := 1,
            parameters_json := none, status := "FAILED", queued_at := 0,
            triggered_by := none }).length
        ≤ ({ retry_count := 2, retry_backoff_seconds := 1 } : Exec.ScheduleRow).retry_count :=
  ⟨rfl, by decide,
    (c2_retry_chain_bound { retry_count := 2, retry_backoff_seconds := 1 } 100
      { robot_id := 1, robot_version_id := 1, service_id := none, schedule_id := some 7,
        env_name := "PROD", trigger_type := "SCHEDULED", attempt := 1,
        parameters_json := none, status := "FAILED", queued_at := 0,
        triggered_by := none } rfl (by decide)).1⟩

/-- C10: a run whose Schedule has `timeout_seconds ≤ 0` is never marked timed
out by the supervision loop, whatever the loop observes and for however many
iterations; the 3600-second default applies only when the run has no Schedule. -/
theorem c10_nonpositive_timeout_never_fires (t : Int) (ht : t ≤ 0) (obs : List Exec.LoopObs) :
    (Exec.supervise (Exec.effectiveTimeout (some t)) obs).timedOut = false
      ∧ Exec.effectiveTimeout none = 3600 := by
  refine ⟨?_, rfl⟩
  show (Exec.supervise t obs).timedOut = false
  have key : ∀ st : Exec.SupFlags, st.timedOut = false →
      ∀ l : List Exec.LoopObs, (l.foldl (Exec.superviseStep t) st).timedOut = false := by
    intro st hst l
    induction l generalizing st with
    | nil => exact hst
    | cons o rest ih =>
        refine ih _ ?_
        simp only [Exec.superviseStep, hst, Bool.false_or, Bool.and_eq_true]
        have : decide (t > 0) = false := by
          simp only [decide_eq_false_iff_not]
          omega
        simp [this]
  exact key _ rfl obs

/-- Witness for `c10_nonpositive_timeout_never_fires`: a schedule with
`timeout_seconds = 0` and a loop that observes 5000 elapsed seconds on a live
process never sets `timed_out`. -/
theorem c10_witness :
    (Exec.supervise (Exec.effectiveTimeout (some 0))
        [{ processRunning := true, cancelCheckDue := false, cancelRequested := false,
           elapsed := 5000 }]).timedOut = false
      ∧ Exec.effectiveTimeout none = 3600 :=
  c10_nonpositive_timeout_never_fires 0 (by decide)
    [{ processRunning := true, cancelCheckDue := false, cancelRequested := false,
       elapsed := 5000 }]

/-! ## C4 — per-minute scheduler dedupe
(`run_scheduler_cycle` scheduler_service.py lines 258-312,
`_already_dispatched_this_minute` lines 482-495, `_acquire_robot_lock` lines
498-521) -/

namespace Sched

/-- The lock resource name `run_scheduler_cycle` acquires before dispatching
(scheduler_service.py line 265): `f"schedule-dispatch:{schedule.robot_id}"`. -/
def lockKey (robotId : Nat) : String := "schedule-dispatch:" ++ toString robotId

/-- Shared state of the scheduler replicas for one Schedule (one Schedule per
robot, hence one lock).  `lock` holds the replica id owning
`schedule-dispatch:<robot_id>` (an exclusive `sp_getapplock` on the shared
relational store).  `runs` is the multiset of minute boundaries containing the
`queued_at` of each committed `SCHEDULED` Run of this schedule.  `checked p`
records that replica `p`'s `_already_dispatched_this_minute` query returned a
zero count for that minute while `p` held the lock. -/
structure SchedState where
  lock : Option Nat
  checked : Nat → Option Nat
  runs : List Nat

/-- Interleaved actions of the scheduler replicas on one Schedule.
`acquire`/`release` model the non-blocking named lock; `checkZero` models a
dedupe query (under the lock) counting zero `SCHEDULED` runs queued in minute
`m`; `dispatch` models `create_run_and_enqueue` committing a run whose
`queued_at` falls in the checked minute, still under the lock (the commit
happens before `_release_robot_lock` runs).  A replica whose dedupe query sees
a nonzero count skips dispatching, so no step is needed for it. -/
inductive SchedStep : SchedState → SchedState → Prop where
  | acquire (p : Nat) (s : SchedState) : s.lock = none →
      SchedStep s { s with lock := some p }
  | checkZero (p m : Nat) (s : SchedState) : s.lock = some p → s.runs.count m = 0 →
      SchedStep s { s with checked := fun q => if q = p then some m else s.checked q }
  | dispatch (p m : Nat) (s : SchedState) : s.lock = some p → s.checked p = some m →
      SchedStep s { s with runs := m :: s.runs,
                           checked := fun q => if q = p then none else s.checked q }
  | release (p : Nat) (s : SchedState) : s.lock = some p →
      SchedStep s { s with lock := none,
                           checked := fun q => if q = p then none else s.checked q }

/-- States reachable from the initial state (no lock holder, no runs). -/
inductive Reachable : SchedState → Prop where
  | init : Reachable { lock := none, checked := fun _ => none, runs := [] }
  | step {s t : SchedState} : Reachable s → SchedStep s t → Reachable t

/-- Inductive invariant: every minute holds at most one scheduled run, and a
passed dedupe check belongs to the current lock holder and certifies a
zero count for its minute. -/
def SchedInv (s : SchedState) : Prop :=
  (∀ m, s.runs.count m ≤ 1)
    ∧ (∀ p m, s.checked p = some m → s.lock = some p ∧ s.runs.count m = 0)

theorem schedStep_inv {s t : SchedState} (hinv : SchedInv s) (hstep : SchedStep s t) :
    SchedInv t := by
  obtain ⟨hcount, hchecked⟩ := hinv
  cases hstep with
  | acquire p s hlock =>
      refine ⟨hcount, ?_⟩
      intro q m hq
      have := (hchecked q m hq).1
      rw [hlock] at this
      exact Option.noConfusion this
  | checkZero p m s hlock hzero =>
      refine ⟨hcount, ?_⟩
      intro q m' hq
      by_cases hqp : q = p
      · subst hqp
        simp only [if_pos rfl] at hq
        cases hq
        exact ⟨hlock, hzero⟩
      · simp only [if_neg hqp] at hq
        exact hchecked q m' hq
  | dispatch p m s hlock hcheckedp =>
      obtain ⟨hl, hz⟩ := hchecked p m hcheckedp
      refine ⟨?_, ?_⟩
      · intro m'
        by_cases hm : m' = m
        · subst hm
          simp [List.count_cons, hz]
        · have : (m :: s.runs).count m' = s.runs.count m' := by
            simp [List.count_cons, hm]
          rw [this]
          exact hcount m'
      · intro q m' hq
        by_cases hqp : q = p
        · subst hqp
          simp only [if_pos rfl] at hq
          exact Option.noConfusion hq
        · simp only [if_neg hqp] at hq
          have := (hchecked q m' hq).1
          rw [hlock] at this
          cases this
          exact absurd rfl hqp
  | release p s hlock =>
      refine ⟨hcount, ?_⟩
      intro q m' hq
      by_cases hqp : q = p
      · subst hqp
        simp only [if_pos rfl] at hq
        exact Option.noConfusion hq
      · simp only [if_neg hqp] at hq
        have := (hchecked q m' hq).1
        rw [hlock] at this
        cases this
        exact absurd rfl hqp

theorem reachable_inv {s : SchedState} (h : Reachable s) : SchedInv s := by
  induction h with
  | init =>
      refine ⟨?_, ?_⟩
      · intro m
        simp
      · intro p m hp
        exact Option.noConfusion hp
  | step _ hstep ih => exact schedStep_inv ih hstep

end Sched

end Enesa

namespace Enesa

/-- C4: in every state reachable by any interleaving of any number of scheduler
replicas — where a dispatch happens only while holding the
`schedule-dispatch:<robot_id>` lock and only after a zero-count dedupe check for
the current minute — each minute boundary holds at most one `SCHEDULED` run for
the schedule. -/
theorem c4_per_minute_dedupe (s : Sched.SchedState) (h : Sched.Reachable s) (m : Nat) :
    s.runs.count m ≤ 1 :=
  (Sched.reachable_inv h).1 m

/-- Witness for `c4_per_minute_dedupe`: the state reached by one replica doing
acquire → dedupe-check → dispatch for minute 5 holds one run in minute 5. -/
theorem c4_witness :
    ({ lock := some 0,
       checked := fun q => if q = 0 then none else (if q = 0 then some 5 else none),
       runs := [5] } : Sched.SchedState).runs.count 5 ≤ 1 :=
  c4_per_minute_dedupe _
    (Sched.Reachable.step
      (Sched.Reachable.step
        (Sched.Reachable.step Sched.Reachable.init (Sched.SchedStep.acquire 0 _ rfl))
        (Sched.SchedStep.checkZero 0 5 _ rfl rfl))
      (Sched.SchedStep.dispatch 0 5 _ rfl rfl))
    5

/-! ## C5 — child-process environment composition
(`make_environment` executor.py lines 89-93, `process_run` lines 306-308,
`resolve_runtime_env` robot_env_service.py lines 128-141) -/

namespace EnvMerge

/-- Python `dict.update`: `env.update(m)` makes every key of `m` override `env`.
Dicts are modelled by their lookup function. -/
def dictUpdate (env m : String → Option String) : String → Option String :=
  fun k =>
    match m k with
    | some v => some v
    | none => env k

/-- `make_environment` (executor.py lines 89-93): start from a copy of
`os.environ`, update with `version.env_vars or {}`, then with `runtime_env or {}`. -/
def makeEnvironment (workerEnv versionEnvVars runtimeEnv : String → Option String) :
    String → Option String :=
  dictUpdate (dictUpdate workerEnv versionEnvVars) runtimeEnv

/-- `resolve_runtime_env` (robot_env_service.py lines 128-141): fold the robot's
env rows for the requested `env_name` into a dict, `output[item.key] = decrypt(...)`.
`rows` are the already-filtered `(key, decrypted value)` pairs in query order. -/
def resolveRuntimeEnv (rows : List (String × String)) : String → Option String :=
  rows.foldl (fun acc kv => fun k => if k = kv.1 then some kv.2 else acc k) (fun _ => none)

/-- The env handed to `subprocess.Popen` in `process_run` (executor.py lines
306-308): `merged_runtime_env = {**robot_env_values, **runtime_env}` followed by
`make_environment(version=version, runtime_env=merged_runtime_env)`. -/
def processRunEnv (workerEnv versionEnvVars robotEnv requestEnv : String → Option String) :
    String → Option String :=
  makeEnvironment workerEnv versionEnvVars (dictUpdate robotEnv requestEnv)

end EnvMerge

end Enesa

namespace Enesa

/-- C5: the child-process environment is the right-biased union of the worker's
process environment, the version's default env map, the robot's decrypted env
store, and the caller's `runtime_env`, in that precedence order: for every key,
the rightmost map defining it wins, and keys defined only in earlier maps are
preserved. -/
theorem c5_env_merge_precedence
    (workerEnv versionEnvVars robotEnv requestEnv : String → Option String) (k : String) :
    EnvMerge.processRunEnv workerEnv versionEnvVars robotEnv requestEnv k
      = (requestEnv k <|> robotEnv k <|> versionEnvVars k <|> workerEnv k) := by
  unfold EnvMerge.processRunEnv EnvMerge.makeEnvironment EnvMerge.dictUpdate
  cases requestEnv k <;> cases robotEnv k <;> cases versionEnvVars k <;> rfl

/-! ## C7 — log fan-out ordering (`append_log`, executor.py lines 63-86) -/

namespace LogFan

/-- One persisted `RunLog` row / one published log frame (the publish sends the
same four fields as JSON). -/
structure LogRow where
  run_id : Nat
  level : String
  message : String
  timestamp : Int
  deriving DecidableEq, Repr

/-- The two external effects `append_log` touches: the `run_logs` table and the
sequence of frames published on the run's broker channel. -/
structure LogState where
  rows : List LogRow
  published : List LogRow
  deriving DecidableEq, Repr

/-- How a call to `append_log` terminates: normally, or by the exception of the
`db.commit()` (persistence) or of the `redis.publish(...)` call. -/
inductive AppendOutcome where
  | ok
  | persistRaised
  | publishRaised
  deriving DecidableEq, Repr

/-- `append_log` (executor.py lines 63-86) with fault injection: `db.add` +
`db.commit()` persist the row first; only then is the frame published.  The
source wraps neither call in try/except, so a failing step raises out of the
function: a persistence failure rolls the transaction back (no row, no publish),
and a publish failure leaves the already-committed row in place. -/
def appendLog (persistOk publishOk : Bool) (st : LogState)
    (runId : Nat) (level message : String) (timestamp : Int) : LogState × AppendOutcome :=
  if !persistOk then (st, .persistRaised)
  else
    let row : LogRow := { run_id := runId, level := level, message := message, timestamp := timestamp }
    let st1 : LogState := { st with rows := st.rows ++ [row] }
    if !publishOk then (st1, .publishRaised)
    else ({ st1 with published := st1.published ++ [row] }, .ok)

end LogFan

end Enesa

namespace Enesa

/-- C7 counterexample: when the broker publish fails after the row was
persisted, `append_log` does not swallow the failure — the call raises
(`publishRaised`), contradicting the claim that `append_log` still succeeds.
The persisted row does remain. -/
theorem c7_counterexample :
    (Enesa.LogFan.appendLog true false { rows := [], published := [] } 1 "INFO" "hello" 0).2
        = Enesa.LogFan.AppendOutcome.publishRaised
      ∧ Enesa.LogFan.AppendOutcome.publishRaised ≠ Enesa.LogFan.AppendOutcome.ok
      ∧ (Enesa.LogFan.appendLog true false { rows := [], published := [] } 1 "INFO" "hello" 0).1.rows
          = [{ run_id := 1, level := "INFO", message := "hello", timestamp := 0 }] := by
  exact ⟨rfl, by decide, rfl⟩

/-- C7 amended: the publish happens only after the RunLog row is durably
persisted — if persistence fails nothing is published and no row is stored; if
the publish fails after persistence, the persisted row remains and nothing is
published, but the failure propagates out of `append_log` instead of being
swallowed. -/
theorem c7_persist_before_publish (st : LogFan.LogState)
    (runId : Nat) (level message : String) (timestamp : Int) :
    (LogFan.appendLog false true st runId level message timestamp
        = (st, LogFan.AppendOutcome.persistRaised))
      ∧ (LogFan.appendLog false false st runId level message timestamp
          = (st, LogFan.AppendOutcome.persistRaised))
      ∧ (LogFan.appendLog true false st runId level message timestamp
          = ({ st with rows := st.rows ++
                [{ run_id := runId, level := level, message := message, timestamp := timestamp }] },
             LogFan.AppendOutcome.publishRaised))
      ∧ (LogFan.appendLog true true st runId level message timestamp
          = ({ rows := st.rows ++
                [{ run_id := runId, level := level, message := message, timestamp := timestamp }],
               published := st.published ++
                [{ run_id := runId, level := level, message := message, timestamp := timestamp }] },
             LogFan.AppendOutcome.ok)) := by
  refine ⟨rfl, rfl, rfl, rfl⟩

/-! ## C3 — cron field matcher
(`_match_cron_field` scheduler_service.py lines 554-594, `_cron_field_regex`
line 29, `_cron_matches` lines 538-551) -/

namespace Cron

/-- The base alternative of `_cron_field_regex = ^(\*|\d+|\d+-\d+)(/\d+)?$`:
`*`, digits, or digits-digits. -/
def cronBaseOk (b : List Char) : Bool :=
  b == ['*'] || Py.isDigits b ||
    (match Py.split '-' b with
     | [x, y] => Py.isDigits x && Py.isDigits y
     | _ => false)

/-- Full-match test against `_cron_field_regex` (scheduler_service.py line 29):
a base, optionally followed by one `/` and digits. -/
def cronFieldRegexMatches (p : List Char) : Bool :=
  match Py.split '/' p with
  | [b] => cronBaseOk b
  | [b, st] => cronBaseOk b && Py.isDigits st
  | _ => false

/-- `step = 1; if "/" in part: base, step_text = part.split("/", 1); step =
int(step_text); else base = part` (scheduler_service.py lines 564-569).  After
the regex check there is at most one `/`; other shapes are unreachable. -/
def cronSplitStep (p : List Char) : List Char × Nat :=
  match Py.split '/' p with
  | [b] => (b, 1)
  | [b, st] => (b, Py.digitsToNat st)
  | _ => (p, 1)

/-- `if "-" in base: start_text, end_text = base.split("-", 1)`
(scheduler_service.py lines 576-577); the regex allows at most one `-`. -/
def cronRangeSplit (b : List Char) : Option (List Char × List Char) :=
  match Py.split '-' b with
  | [x, y] => some (x, y)
  | _ => none

/-- Day-of-week normalization `x = 0 if x == 7 else x` applied when
`is_day_of_week` (scheduler_service.py lines 580-582 and 590-591). -/
def normDow (isDow : Bool) (n : Nat) : Nat := if isDow && n == 7 then 0 else n

/-- How evaluating one comma-atom terminates inside the `for` loop of
`_match_cron_field`: `return True`, `return False`, `continue`, or a
`ZeroDivisionError` from `% step` with `step = 0`. -/
inductive AtomRes where
  | tru
  | fals
  | nxt
  | err
  deriving DecidableEq, Repr

/-- The body of `_match_cron_field` after the regex check and step split
(scheduler_service.py lines 571-593):
`*` base counts from `min_value` with the step; a range normalizes its dow
endpoints, returns False outright when `start > end`, and matches when the
value lies inside with the right stride; a plain number is dow-normalized and
compared.  Python evaluates `(value - start) % step` only when the range test
passed, so a zero step errors only on the paths that reach the modulo. -/
def evalCronBase (isDow : Bool) (minValue value : Int) (b : List Char) (step : Nat) : AtomRes :=
  if b == ['*'] then
    if step = 0 then .err
    else if (value - minValue).emod (step : Int) = 0 then .tru else .nxt
  else
    match cronRangeSplit b with
    | some (sx, sy) =>
      let a : Int := (normDow isDow (Py.digitsToNat sx) : Int)
      let c : Int := (normDow isDow (Py.digitsToNat sy) : Int)
      if a > c then .fals
      else if a ≤ value ∧ value ≤ c then
        if step = 0 then .err
        else if (value - a).emod (step : Int) = 0 then .tru else .nxt
      else .nxt
    | none =>
      let n : Int := (normDow isDow (Py.digitsToNat b) : Int)
      if n = value then .tru else .nxt

/-- One iteration of the `for part in raw.split(",")` loop (scheduler_service.py
lines 555-593) on an already-stripped part: empty parts are skipped, `*`
returns True, a part failing the regex returns False, otherwise the base/step
evaluation runs. -/
def evalCronAtom (isDow : Bool) (minValue value : Int) (p : List Char) : AtomRes :=
  if p = [] then .nxt
  else if p = ['*'] then .tru
  else if !cronFieldRegexMatches p then .fals
  else evalCronBase isDow minValue value (cronSplitStep p).1 (cronSplitStep p).2

/-- The whole loop of `_match_cron_field`: first decisive atom wins; an
exhausted loop returns False.  `none` models an uncaught `ZeroDivisionError`. -/
def matchAtoms (isDow : Bool) (minValue value : Int) : List (List Char) → Option Bool
  | [] => some false
  | p :: rest =>
    match evalCronAtom isDow minValue value (Py.strip p) with
    | .tru => some true
    | .fals => some false
    | .err => none
    | .nxt => matchAtoms isDow minValue value rest

/-- `_match_cron_field(raw, value, min_value, max_value, is_day_of_week)`
(scheduler_service.py lines 554-594).  `max_value` is accepted and never read,
exactly as in the source. -/
def matchCronField (raw : String) (value minValue maxValue : Int) (isDow : Bool) :
    Option Bool :=
  matchAtoms isDow minValue value (Py.split ',' raw.toList)

/-- The set a grammar base with a step denotes, per the spec's field semantics:
`*` denotes every value congruent to `min_value` modulo the step, `N-M` the
values inside the (dow-normalized) bounds with the right stride, `N` the
(dow-normalized) number itself. -/
def baseDenotes (isDow : Bool) (minValue value : Int) (b : List Char) (step : Nat) : Bool :=
  if b == ['*'] then decide ((value - minValue).emod (step : Int) = 0)
  else
    match cronRangeSplit b with
    | some (sx, sy) =>
      decide ((normDow isDow (Py.digitsToNat sx) : Int) ≤ value)
        && decide (value ≤ (normDow isDow (Py.digitsToNat sy) : Int))
        && decide ((value - (normDow isDow (Py.digitsToNat sx) : Int)).emod (step : Int) = 0)
    | none => decide ((normDow isDow (Py.digitsToNat b) : Int) = value)

/-- The set a single (stripped) atom denotes: nothing when it falls outside the
grammar, everything for `*`, else its base/step set. -/
def atomDenotes (isDow : Bool) (minValue value : Int) (p : List Char) : Bool :=
  if p = ['*'] then true
  else if !cronFieldRegexMatches p then false
  else baseDenotes isDow minValue value (cronSplitStep p).1 (cronSplitStep p).2

/-- The set a comma-list denotes: the union over its stripped atoms. -/
def listDenotes (isDow : Bool) (minValue value : Int) (parts : List (List Char)) : Bool :=
  parts.any (fun p => atomDenotes isDow minValue value (Py.strip p))

/-- The denotation of a whole field expression. -/
def fieldDenotes (raw : String) (value minValue : Int) (isDow : Bool) : Bool :=
  listDenotes isDow minValue value (Py.split ',' raw.toList)

/-- Well-formedness of a stripped atom: inside the grammar, with a positive
step, and (for ranges) a nonempty dow-normalized interval. -/
def atomWF (isDow : Bool) (p : List Char) : Bool :=
  cronFieldRegexMatches p
    && decide (1 ≤ (cronSplitStep p).2)
    && (if (cronSplitStep p).1 == ['*'] then true
        else
          match cronRangeSplit (cronSplitStep p).1 with
          | some (sx, sy) =>
            decide (normDow isDow (Py.digitsToNat sx) ≤ normDow isDow (Py.digitsToNat sy))
          | none => true)

theorem evalCronBase_of_wf (isDow : Bool) (minValue value : Int) (b : List Char) (step : Nat)
    (hstep : 1 ≤ step)
    (hrange : ∀ sx sy, cronRangeSplit b = some (sx, sy) →
      normDow isDow (Py.digitsToNat sx) ≤ normDow isDow (Py.digitsToNat sy)) :
    evalCronBase isDow minValue value b step
      = (if baseDenotes isDow minValue value b step then .tru else .nxt) := by
  unfold evalCronBase baseDenotes
  by_cases hb : (b == ['*']) = true
  · simp only [hb, if_true]
    have h0 : ¬ step = 0 := by omega
    by_cases hmod : (value - minValue).emod (step : Int) = 0 <;> simp [h0, hmod]
  · simp only [Bool.not_eq_true] at hb
    simp only [hb, Bool.false_eq_true, if_false]
    cases hr : cronRangeSplit b with
    | none =>
        by_cases hn : (normDow isDow (Py.digitsToNat b) : Int) = value <;> simp [hn]
    | some xy =>
        obtain ⟨sx, sy⟩ := xy
        have hac := hrange sx sy hr
        have hac' : (normDow isDow (Py.digitsToNat sx) : Int)
            ≤ (normDow isDow (Py.digitsToNat sy) : Int) := by exact_mod_cast hac
        have hgt : ¬ (normDow isDow (Py.digitsToNat sx) : Int)
            > (normDow isDow (Py.digitsToNat sy) : Int) := not_lt.mpr hac'
        have h0 : ¬ step = 0 := by omega
        by_cases hin : (normDow isDow (Py.digitsToNat sx) : Int) ≤ value
            ∧ value ≤ (normDow isDow (Py.digitsToNat sy) : Int)
        · by_cases hmod : (value - (normDow isDow (Py.digitsToNat sx) : Int)).emod (step : Int) = 0 <;>
            simp [hgt, hin, h0, hmod, hin.1, hin.2]
        · have : ¬ ((normDow isDow (Py.digitsToNat sx) : Int) ≤ value
              ∧ value ≤ (normDow isDow (Py.digitsToNat sy) : Int)) := hin
          rcases Classical.not_and_iff_or_not_not.mp this with hlt | hlt <;>
            simp [hgt, hin, hlt]

theorem evalCronAtom_of_wf (isDow : Bool) (minValue value : Int) (p : List Char)
    (h : atomWF isDow p = true) :
    evalCronAtom isDow minValue value p
      = (if atomDenotes isDow minValue value p then .tru else .nxt) := by
  have hparts := Bool.and_eq_true_iff.mp h
  have hregex : cronFieldRegexMatches p = true := (Bool.and_eq_true_iff.mp hparts.1).1
  have hstep : 1 ≤ (cronSplitStep p).2 :=
    of_decide_eq_true (Bool.and_eq_true_iff.mp hparts.1).2
  have hne : p ≠ [] := by
    intro he
    rw [he] at hregex
    exact absurd hregex (by decide)
  by_cases hstar : p = ['*']
  · subst hstar
    rfl
  · unfold evalCronAtom atomDenotes
    simp only [if_neg hne, if_neg hstar, hregex, Bool.not_true, Bool.false_eq_true, if_false]
    apply evalCronBase_of_wf _ _ _ _ _ hstep
    intro sx sy hr
    have hbr := hparts.2
    by_cases hsb : ((cronSplitStep p).1 == ['*']) = true
    · rw [show cronRangeSplit (cronSplitStep p).1 = some (sx, sy) from hr] at hbr
      have : (cronSplitStep p).1 = ['*'] := by
        simpa using hsb
      rw [this] at hr
      rw [show cronRangeSplit ['*'] = none from rfl] at hr
      exact Option.noConfusion hr
    · simp only [Bool.not_eq_true] at hsb
      rw [hsb, hr] at hbr
      simp only [Bool.false_eq_true, if_false] at hbr
      exact of_decide_eq_true hbr

theorem matchAtoms_of_wf (isDow : Bool) (minValue value : Int) (parts : List (List Char))
    (h : ∀ p ∈ parts, atomWF isDow (Py.strip p) = true) :
    matchAtoms isDow minValue value parts = some (listDenotes isDow minValue value parts) := by
  induction parts with
  | nil => rfl
  | cons p rest ih =>
      have hp := h p (List.mem_cons_self p rest)
      have heval := evalCronAtom_of_wf isDow minValue value (Py.strip p) hp
      unfold matchAtoms listDenotes
      rw [heval]
      by_cases hd : atomDenotes isDow minValue value (Py.strip p) = true
      · simp [hd]
      · simp only [Bool.not_eq_true] at hd
        simp only [hd, Bool.false_eq_true, if_false, List.any_cons, Bool.false_or]
        exact ih (fun q hq => h q (List.mem_cons_of_mem p hq))

end Cron

end Enesa

namespace Enesa

/-- C3 counterexample: `"5-3,2"` is a comma list of grammar atoms and the value
2 lies in the set the list denotes (the atom `2`), yet the matcher returns
false: the empty range `5-3` makes `_match_cron_field` return False before the
atom `2` is examined. -/
theorem c3_counterexample :
    Cron.matchCronField "5-3,2" 2 0 59 false = some false
      ∧ Cron.fieldDenotes "5-3,2" 2 0 false = true
      ∧ (∀ p ∈ Py.split ',' "5-3,2".toList, Cron.cronFieldRegexMatches (Py.strip p) = true) := by
  refine ⟨rfl, rfl, by decide⟩

/-- C3 amended: for a comma-list of grammar atoms that are all well-formed —
positive step and, after day-of-week normalization of endpoint 7 to 0, range
start ≤ end — the matcher returns true iff the tested value lies in the set the
list denotes (with `*/step` counting from the field minimum and day-of-week 7
normalized to 0); atoms are examined left to right, so a non-grammar atom (in
particular a bare `/step`) yields false when no earlier atom matched, an empty
range returns false outright, and a zero step raises when its modulo is
reached. -/
theorem c3_matcher_matches_denoted_set (raw : String) (value minValue maxValue : Int)
    (isDow : Bool)
    (h : ∀ p ∈ Py.split ',' raw.toList, Cron.atomWF isDow (Py.strip p) = true) :
    Cron.matchCronField raw value minValue maxValue isDow
        = some (Cron.fieldDenotes raw value minValue isDow)
      ∧ ∀ (v mn mx : Int) (d : Bool), Cron.matchCronField "/2" v mn mx d = some false := by
  constructor
  · exact Cron.matchAtoms_of_wf isDow minValue value (Py.split ',' raw.toList) h
  · intro v mn mx d
    rfl

/-- Witness for `c3_matcher_matches_denoted_set`: the field `"*/15,7"` on the
day-of-week axis (minimum 0) matches the value 0 — both via `*/15` from the
minimum and via the normalized `7`. -/
theorem c3_witness :
    (∀ p ∈ Py.split ',' "*/15,7".toList, Cron.atomWF true (Py.strip p) = true)
      ∧ Cron.matchCronField "*/15,7" 0 0 7 true = some (Cron.fieldDenotes "*/15,7" 0 0 true)
      ∧ Cron.fieldDenotes "*/15,7" 0 0 true = true := by
  refine ⟨by decide, ?_, by rfl⟩
  exact (c3_matcher_matches_denoted_set "*/15,7" 0 0 7 true (by decide)).1

/-! ## C8 — log-stream replay
(`run_log_stream` ws_logs.py lines 46-58, `get_run_logs` run_service.py lines
141-142) -/

namespace LogStream

/-- A `run_logs` row as the replay reads it: autoincrement `id`, owning run,
payload. -/
structure RunLogRow where
  id : Nat
  run_id : Nat
  message : String
  deriving DecidableEq, Repr

/-- Insertion into a list ascending by `id` (models `ORDER BY id ASC`). -/
def insertById (r : RunLogRow) : List RunLogRow → List RunLogRow
  | [] => [r]
  | x :: xs => if r.id ≤ x.id then r :: x :: xs else x :: insertById r xs

/-- Sort by `id` ascending. -/
def sortById (l : List RunLogRow) : List RunLogRow := l.foldr insertById []

/-- `get_run_logs` (run_service.py lines 141-142): rows of the run, ordered by
`id` ascending, limited — i.e. the *first* `limit` rows in id order. -/
def getRunLogs (tbl : List RunLogRow) (runId : Nat) (limit : Nat) : List RunLogRow :=
  (sortById (tbl.filter (fun r => r.run_id == runId))).take limit

/-- The replay step of `run_log_stream` (ws_logs.py line 48):
`get_run_logs(db=db, run_id=run_id, limit=200)`, sent frame by frame. -/
def replayRows (tbl : List RunLogRow) (runId : Nat) : List RunLogRow :=
  getRunLogs tbl runId 200

/-- What the claim asks for: the *last* `n` rows (greatest ids), in ascending
id order. -/
def lastNAscending (tbl : List RunLogRow) (runId : Nat) (n : Nat) : List RunLogRow :=
  let sorted := sortById (tbl.filter (fun r => r.run_id == runId))
  sorted.drop (sorted.length - n)

theorem insertById_perm (r : RunLogRow) (l : List RunLogRow) :
    (insertById r l).Perm (r :: l) := by
  induction l with
  | nil => exact List.Perm.refl _
  | cons x xs ih =>
      unfold insertById
      by_cases h : r.id ≤ x.id
      · simp only [if_pos h]
        exact List.Perm.refl _
      · simp only [if_neg h]
        exact (ih.cons x).trans (List.Perm.swap r x xs)

theorem sortById_perm (l : List RunLogRow) : (sortById l).Perm l := by
  induction l with
  | nil => exact List.Perm.refl _
  | cons x xs ih =>
      show (insertById x (sortById xs)).Perm (x :: xs)
      exact (insertById_perm x (sortById xs)).trans (ih.cons x)

theorem insertById_sorted (r : RunLogRow) (l : List RunLogRow)
    (h : l.Pairwise (fun a b => a.id ≤ b.id)) :
    (insertById r l).Pairwise (fun a b => a.id ≤ b.id) := by
  induction l with
  | nil => simp [insertById]
  | cons x xs ih =>
      rw [List.pairwise_cons] at h
      unfold insertById
      by_cases hle : r.id ≤ x.id
      · simp only [if_pos hle]
        rw [List.pairwise_cons]
        refine ⟨?_, List.pairwise_cons.mpr h⟩
        intro y hy
        rcases List.mem_cons.mp hy with hy | hy
        · subst hy
          exact hle
        · exact le_trans hle (h.1 y hy)
      · simp only [if_neg hle]
        rw [List.pairwise_cons]
        refine ⟨?_, ih h.2⟩
        intro y hy
        have hy2 := (insertById_perm r xs).mem_iff.mp hy
        rcases List.mem_cons.mp hy2 with hy2 | hy2
        · subst hy2
          omega
        · exact h.1 y hy2

theorem sortById_sorted (l : List RunLogRow) :
    (sortById l).Pairwise (fun a b => a.id ≤ b.id) := by
  induction l with
  | nil => simp [sortById]
  | cons x xs ih => exact insertById_sorted x (sortById xs) ih

end LogStream

end Enesa

namespace Enesa

set_option maxRecDepth 100000 in
/-- C8 counterexample: for a run with 201 persisted rows (ids 0..200), the
replay sends the rows with ids 0..199 — the *first* 200 by id — not the last
200 (ids 1..200) the claim describes: `get_run_logs` orders ascending and
limits, keeping the smallest ids. -/
theorem c8_counterexample :
    ((List.range 201).map (fun i => ({ id := i, run_id := 1, message := "m" } :
        LogStream.RunLogRow))).length > 200
      ∧ LogStream.replayRows
            ((List.range 201).map (fun i => { id := i, run_id := 1, message := "m" })) 1
          ≠ LogStream.lastNAscending
            ((List.range 201).map (fun i => { id := i, run_id := 1, message := "m" })) 1 200 := by
  constructor
  · simp
  · intro h
    have h0 := congrArg (fun l => List.head? l) h
    rw [show LogStream.replayRows
        ((List.range 201).map (fun i => { id := i, run_id := 1, message := "m" })) 1
        = LogStream.getRunLogs
            ((List.range 201).map (fun i => { id := i, run_id := 1, message := "m" })) 1 200
      from rfl] at h0
    exact absurd h0 (by decide)

/-- C8 amended: the replay step sends, in ascending id order, the *first*
`min(200, count)` persisted rows of the run — those with the smallest ids —
rather than the last 200: every replayed row belongs to the run, the frames are
ascending by id, and any stored row of the run left out of the replay has an id
at least as large as every replayed one. -/
theorem c8_replay_sends_first_200 (tbl : List LogStream.RunLogRow) (runId : Nat) :
    (LogStream.replayRows tbl runId).length
        = min 200 (tbl.filter (fun r => r.run_id == runId)).length
      ∧ (LogStream.replayRows tbl runId).Pairwise (fun a b => a.id ≤ b.id)
      ∧ (∀ r ∈ LogStream.replayRows tbl runId, r ∈ tbl.filter (fun x => x.run_id == runId))
      ∧ ∀ r ∈ LogStream.replayRows tbl runId,
          ∀ q ∈ tbl.filter (fun x => x.run_id == runId),
            q ∉ LogStream.replayRows tbl runId → r.id ≤ q.id := by
  have hperm := LogStream.sortById_perm (tbl.filter (fun r => r.run_id == runId))
  have hsorted := LogStream.sortById_sorted (tbl.filter (fun r => r.run_id == runId))
  refine ⟨?_, ?_, ?_, ?_⟩
  · show ((LogStream.sortById _).take 200).length = _
    rw [List.length_take, hperm.length_eq]
  · exact hsorted.sublist (List.take_sublist _ _)
  · intro r hr
    exact hperm.subset ((List.take_sublist _ _).subset hr)
  · intro r hr q hq hqn
    have hqs : q ∈ LogStream.sortById (tbl.filter (fun x => x.run_id == runId)) :=
      hperm.mem_iff.mpr hq
    rw [← List.take_append_drop 200
      (LogStream.sortById (tbl.filter (fun x => x.run_id == runId)))] at hqs
    rcases List.mem_append.mp hqs with hq2 | hq2
    · exact absurd hq2 hqn
    · have hpw := hsorted
      rw [← List.take_append_drop 200
        (LogStream.sortById (tbl.filter (fun x => x.run_id == runId)))] at hpw
      exact (List.pairwise_append.mp hpw).2.2 r hr q hq2

/-! ## C6 — required-env-key preflight and its HTTP surface
(`create_run_and_enqueue` / `_validate_required_env_keys` run_service.py lines
31-82 and 145-157, `execute_robot` runs.py lines 28-55) -/

namespace Registry

/-- Lexicographic code-point comparison, Python `str < str`, used to model
`sorted(...)`. -/
def lexLt : List Char → List Char → Bool
  | [], [] => false
  | [], _ :: _ => true
  | _ :: _, [] => false
  | a :: as, b :: bs =>
    if a.toNat < b.toNat then true
    else if b.toNat < a.toNat then false
    else lexLt as bs

/-- Insertion into an ascending list under `lexLt`. -/
def insertStr (a : String) : List String → List String
  | [] => [a]
  | b :: bs => if lexLt a.toList b.toList then a :: b :: bs else b :: insertStr a bs

/-- Python `sorted` on strings (ascending code-point order). -/
def sortStrs (l : List String) : List String := l.foldr insertStr []

/-- The RobotVersion columns the registry preflight reads. `versions` lists are
kept in `created_at`-descending order, so resolving the active version takes
the first active row (run_service.py lines 20-25). -/
structure VersionRow where
  id : Nat
  robot_id : Nat
  is_active : Bool
  required_env_keys : List String
  deriving DecidableEq, Repr

/-- One row of the robot env store (`robot_env_vars`): the defined key for a
`(robot_id, env_name)` pair (values are irrelevant to the preflight). -/
structure EnvVarRow where
  robot_id : Nat
  env_name : String
  key : String
  deriving DecidableEq, Repr

/-- The tables `create_run_and_enqueue` touches. -/
structure RegistryDb where
  versions : List VersionRow
  envVars : List EnvVarRow
  runs : List Exec.RunRow
  deriving DecidableEq, Repr

/-- `RunExecuteRequest`.  Modelled from the spec: the `env_name` member
(spec §4.1 / §6, request body `{version_id?, runtime_arguments[],
runtime_env{}, env_name}`) is read by `create_run_and_enqueue` as
`payload.env_name`, but the snapshot of `schemas/run.py` is an older revision
without it. -/
structure ExecPayload where
  version_id : Option Nat
  robot_version_id : Option Nat
  runtime_arguments : List String
  runtime_env : List (String × String)
  env_name : String
  deriving DecidableEq, Repr

/-- `RunExecuteRequest.resolved_version_id`: `version_id or robot_version_id`. -/
def resolvedVersionId (p : ExecPayload) : Option Nat :=
  match p.version_id with
  | some v => some v
  | none => p.robot_version_id

/-- Error kinds `create_run_and_enqueue` raises as `ValueError` (spec §7:
`VersionNotFound`, invalid env name, `MissingEnv(keys[])`). -/
inductive CreateRunError where
  | versionNotFound
  | invalidEnvName
  | missingEnv (keys : List String)
  deriving DecidableEq, Repr

/-- `_resolve_robot_version` (run_service.py lines 17-28): the requested
version must belong to the robot; otherwise the newest active version. -/
def resolveRobotVersion (db : RegistryDb) (robotId : Nat) (requested : Option Nat) :
    Option VersionRow :=
  match requested with
  | some vid => db.versions.find? (fun v => v.id == vid && v.robot_id == robotId)
  | none => (db.versions.filter (fun v => v.robot_id == robotId && v.is_active)).head?

/-- `normalize_env_name` (robot_env_service.py lines 17-21):
`(env_name or "").strip().upper()` must be one of PROD, HML, TEST. -/
def normalizeEnvName (envName : String) : Except CreateRunError String :=
  let n := String.mk ((Py.strip envName.toList).map Char.toUpper)
  if n = "PROD" || n = "HML" || n = "TEST" then .ok n else .error .invalidEnvName

/-- `list_defined_env_keys` (robot_env_service.py lines 144-152): the keys
defined for `(robot_id, env_name)`. -/
def listDefinedEnvKeys (db : RegistryDb) (robotId : Nat) (envName : String) : List String :=
  (db.envVars.filter (fun r => r.robot_id == robotId && r.env_name == envName)).map (·.key)

/-- `sorted({item.strip() for item in required_keys if ... item.strip()})`
(run_service.py line 146): strip, drop empties, deduplicate, sort. -/
def normalizedRequired (required : List String) : List String :=
  sortStrs (((required.map (fun s => String.mk (Py.strip s.toList))).filter
    (fun s => s ≠ "")).eraseDups)

/-- The keys of `normalized_required` with no row in the robot's env store
(run_service.py line 151). -/
def missingKeys (db : RegistryDb) (robotId : Nat) (envName : String)
    (required : List String) : List String :=
  (normalizedRequired required).filter (fun k => !(listDefinedEnvKeys db robotId envName).contains k)

/-- `_validate_required_env_keys` (run_service.py lines 145-157). -/
def validateRequiredEnvKeys (db : RegistryDb) (robotId : Nat) (envName : String)
    (required : List String) : Except CreateRunError Unit :=
  if (normalizedRequired required).isEmpty then .ok ()
  else if (missingKeys db robotId envName required).isEmpty then .ok ()
  else .error (.missingEnv (missingKeys db robotId envName required))

/-- `create_run_and_enqueue` (run_service.py lines 31-82) for the manual
execute path: resolve the version, normalize the env name, run the preflight,
then persist the PENDING run (the broker publish is not modelled here). -/
def createRun (db : RegistryDb) (robotId : Nat) (p : ExecPayload) (now : Nat) :
    Except CreateRunError (RegistryDb × Exec.RunRow) :=
  match resolveRobotVersion db robotId (resolvedVersionId p) with
  | none => .error .versionNotFound
  | some v =>
    match normalizeEnvName p.env_name with
    | .error e => .error e
    | .ok en =>
      match validateRequiredEnvKeys db robotId en v.required_env_keys with
      | .error e => .error e
      | .ok _ =>
        let run : Exec.RunRow :=
          { robot_id := robotId
            robot_version_id := v.id
            service_id := none
            schedule_id := none
            env_name := en
            trigger_type := TriggerType.MANUAL
            attempt := 1
            parameters_json := none
            status := RunStatus.PENDING
            queued_at := now
            triggered_by := none }
        .ok ({ db with runs := db.runs ++ [run] }, run)

/-- The `POST /runs/{robot_id}/execute` endpoint (runs.py lines 28-55): every
`ValueError` from `create_run_and_enqueue` is re-raised as HTTP 404; success is
202 with the run.  Returns the status and the resulting database. -/
def executeRobot (db : RegistryDb) (robotId : Nat) (p : ExecPayload) (now : Nat) :
    Nat × RegistryDb :=
  match createRun db robotId p now with
  | .error _ => (404, db)
  | .ok (db', _) => (202, db')

end Registry

end Enesa

namespace Enesa

/-- C6 counterexample: a version requiring `API_KEY` with an empty env store
makes `create_run` fail with `MissingEnv ["API_KEY"]`, but the execute endpoint
surfaces it as HTTP 404, not 400 — `execute_robot` maps every `ValueError`
(version lookup and preflight alike) to 404. -/
theorem c6_counterexample :
    Registry.createRun
        { versions := [{ id := 1, robot_id := 1, is_active := true,
                         required_env_keys := ["API_KEY"] }],
          envVars := [], runs := [] } 1
        { version_id := none, robot_version_id := none, runtime_arguments := [],
          runtime_env := [], env_name := "PROD" } 50
      = .error (.missingEnv ["API_KEY"])
    ∧ (Registry.executeRobot
        { versions := [{ id := 1, robot_id := 1, is_active := true,
                         required_env_keys := ["API_KEY"] }],
          envVars := [], runs := [] } 1
        { version_id := none, robot_version_id := none, runtime_arguments := [],
          runtime_env := [], env_name := "PROD" } 50).1 = 404
    ∧ (404 : Nat) ≠ 400 := by
  refine ⟨by rfl, by rfl, by decide⟩

/-- C6 amended: when a required env key has no value in the robot's env store,
`create_run` fails with `MissingEnv` listing exactly the missing keys, no Run
row is persisted, and the execute endpoint surfaces the failure as HTTP 404 —
the same status as unknown robot/version — because it maps every registry
`ValueError` to 404. -/
theorem c6_missing_env_surfaces_404 (db : Registry.RegistryDb) (robotId : Nat)
    (p : Registry.ExecPayload) (now : Nat) (v : Registry.VersionRow) (en : String)
    (hv : Registry.resolveRobotVersion db robotId (Registry.resolvedVersionId p) = some v)
    (hn : Registry.normalizeEnvName p.env_name = .ok en)
    (hm : Registry.missingKeys db robotId en v.required_env_keys ≠ []) :
    Registry.createRun db robotId p now
        = .error (.missingEnv (Registry.missingKeys db robotId en v.required_env_keys))
      ∧ Registry.executeRobot db robotId p now = (404, db)
      ∧ ∀ (db' : Registry.RegistryDb) (robotId' now' : Nat) (p' : Registry.ExecPayload)
          (e : Registry.CreateRunError),
          Registry.createRun db' robotId' p' now' = .error e →
            Registry.executeRobot db' robotId' p' now' = (404, db') := by
  have hnorm_ne : ¬ (Registry.normalizedRequired v.required_env_keys).isEmpty = true := by
    intro h
    apply hm
    unfold Registry.missingKeys
    rw [List.isEmpty_iff] at h
    rw [h]
    rfl
  have hmiss_ne : ¬ (Registry.missingKeys db robotId en v.required_env_keys).isEmpty = true := by
    intro h
    rw [List.isEmpty_iff] at h
    exact hm h
  have hval : Registry.validateRequiredEnvKeys db robotId en v.required_env_keys
      = .error (.missingEnv (Registry.missingKeys db robotId en v.required_env_keys)) := by
    unfold Registry.validateRequiredEnvKeys
    simp [hnorm_ne, hmiss_ne]
  have hcreate : Registry.createRun db robotId p now
      = .error (.missingEnv (Registry.missingKeys db robotId en v.required_env_keys)) := by
    unfold Registry.createRun
    simp only [hv, hn, hval]
  refine ⟨hcreate, ?_, ?_⟩
  · unfold Registry.executeRobot
    rw [hcreate]
  · intro db' robotId' now' p' e he
    unfold Registry.executeRobot
    rw [he]

/-- Witness for `c6_missing_env_surfaces_404` at the concrete database of the
counterexample. -/
theorem c6_witness :
    Registry.createRun
        { versions := [{ id := 1, robot_id := 1, is_active := true,
                         required_env_keys := ["API_KEY"] }],
          envVars := [], runs := [] } 1
        { version_id := none, robot_version_id := none, runtime_arguments := [],
          runtime_env := [], env_name := "PROD" } 50
      = .error (.missingEnv (Registry.missingKeys
          { versions := [{ id := 1, robot_id := 1, is_active := true,
                           required_env_keys := ["API_KEY"] }],
            envVars := [], runs := [] } 1 "PROD" ["API_KEY"]))
    ∧ Registry.executeRobot
        { versions := [{ id := 1, robot_id := 1, is_active := true,
                         required_env_keys := ["API_KEY"] }],
          envVars := [], runs := [] } 1
        { version_id := none, robot_version_id := none, runtime_arguments := [],
          runtime_env := [], env_name := "PROD" } 50
      = (404, { versions := [{ id := 1, robot_id := 1, is_active := true,
                               required_env_keys := ["API_KEY"] }],
                envVars := [], runs := [] }) := by
  have h := c6_missing_env_surfaces_404
    { versions := [{ id := 1, robot_id := 1, is_active := true,
                     required_env_keys := ["API_KEY"] }],
      envVars := [], runs := [] } 1
    { version_id := none, robot_version_id := none, runtime_arguments := [],
      runtime_env := [], env_name := "PROD" } 50
    { id := 1, robot_id := 1, is_active := true, required_env_keys := ["API_KEY"] }
    "PROD" (by rfl) (by rfl) (by decide)
  exact ⟨h.1, h.2.1⟩

/-! ## C9 — SLA rule validation
(`SlaRuleCreate` with its field constraints and `validate_expectation` model
validator, schemas/scheduler.py lines 64-80; `_validate_sla_payload`
scheduler_service.py lines 633-637; `create_sla_rule` lines 120-143; and
`create_robot_sla` in robots.py lines 424-447, whose `SlaRuleCreate` body is
parsed by FastAPI — a pydantic validation failure is answered 422 by the
default handler before the endpoint body runs) -/

namespace Sla

/-- Python truthiness of an optional int (`not expected_run_every_minutes`):
`None` and `0` are falsy. -/
def pyTruthyInt : Option Int → Bool
  | none => false
  | some n => !(n == 0)

/-- Python truthiness of an optional string: `None` and `""` are falsy. -/
def pyTruthyStr : Option String → Bool
  | none => false
  | some s => !(s == "")

/-- `_parse_hhmm` (scheduler_service.py lines 597-599): split on `":"` into
exactly two pieces, convert both with `int`, and build a `datetime.time`, which
requires `0 ≤ hour ≤ 23` and `0 ≤ minute ≤ 59`; any other shape raises. -/
def parseHHMM (value : String) : Option (Nat × Nat) :=
  match Py.split ':' value.toList with
  | [hs, ms] =>
    match Py.pyInt hs, Py.pyInt ms with
    | some h, some m => if h ≤ 23 && m ≤ 59 then some (h, m) else none
    | _, _ => none
  | _ => none

/-- `_validate_sla_payload` (scheduler_service.py lines 633-637): reject when
*neither* field is (truthily) set; then parse `expected_daily_time` when it is
set.  (The parse failure message stands in for whatever `int`/`time` raises.) -/
def validateSlaPayload (expectedRunEvery : Option Int) (expectedDailyTime : Option String) :
    Except String Unit :=
  if !pyTruthyInt expectedRunEvery && !pyTruthyStr expectedDailyTime then
    .error "Provide expected_run_every_minutes or expected_daily_time."
  else if pyTruthyStr expectedDailyTime then
    match expectedDailyTime with
    | some s =>
      match parseHHMM s with
      | some _ => .ok ()
      | none => .error "Invalid time format."
    | none => .ok ()
  else .ok ()

/-- `TIME_PATTERN = ^([01]\d|2[0-3]):[0-5]\d$` (schemas/scheduler.py line 11),
the pydantic field pattern for `expected_daily_time`. -/
def timePatternMatches : List Char → Bool
  | [h1, h2, c, m1, m2] =>
    c == ':'
      && ((h1 == '0' || h1 == '1') && h2.isDigit
          || h1 == '2' && (decide ('0' ≤ h2) && decide (h2 ≤ '3')))
      && (decide ('0' ≤ m1) && decide (m1 ≤ '5')) && m2.isDigit
  | _ => false

/-- The pydantic validation of `SlaRuleCreate` (schemas/scheduler.py lines
64-80): the field constraints `expected_run_every_minutes ∈ [1, 10080]` and
`expected_daily_time` matching `TIME_PATTERN`, plus the `validate_expectation`
model validator requiring at least one of the two to be (truthily) set. -/
def slaRuleCreateValid (expectedRunEvery : Option Int) (expectedDailyTime : Option String) :
    Bool :=
  (match expectedRunEvery with
   | none => true
   | some n => decide (1 ≤ n) && decide (n ≤ 10080))
    && (match expectedDailyTime with
        | none => true
        | some s => timePatternMatches s.toList)
    && (pyTruthyInt expectedRunEvery || pyTruthyStr expectedDailyTime)

/-- A parsed `SlaRuleCreate` — the payload type `create_sla_rule` receives.
Values exist only for bodies that passed the pydantic validation, so a
neither-set payload is not constructible. -/
structure SlaRuleCreate where
  expected_run_every_minutes : Option Int
  expected_daily_time : Option String
  valid : slaRuleCreateValid expected_run_every_minutes expected_daily_time = true

/-- FastAPI parsing the request body into `SlaRuleCreate`; `none` models the
422 validation response of the default handler (none is overridden in
main.py). -/
def slaRuleCreateParse (expectedRunEvery : Option Int) (expectedDailyTime : Option String) :
    Option SlaRuleCreate :=
  if h : slaRuleCreateValid expectedRunEvery expectedDailyTime = true then
    some ⟨expectedRunEvery, expectedDailyTime, h⟩
  else none

/-- `create_sla_rule` (scheduler_service.py lines 120-143): robot existence
check, one-rule-per-robot check, `_validate_sla_payload`, then the insert.  The
DB lookups are represented by the two booleans; the created rule is summarized
by its two expectation fields. -/
def createSlaRule (robotExists existingRule : Bool) (payload : SlaRuleCreate) :
    Except String (Option Int × Option String) :=
  if !robotExists then .error "Robot not found."
  else if existingRule then .error "Robot already has an SLA rule."
  else
    match validateSlaPayload payload.expected_run_every_minutes payload.expected_daily_time with
    | .error e => .error e
    | .ok _ => .ok (payload.expected_run_every_minutes, payload.expected_daily_time)

/-- The ValueError → HTTP status mapping of `create_robot_sla` (robots.py line
435): 404 when `"not found"` occurs in the lowercased message, else 400. -/
def valueErrorStatus (msg : String) : Nat :=
  if Py.containsSub "not found".toList (Py.lower msg.toList) then 404 else 400

/-- `POST /robots/{robot_id}/sla` end to end (robots.py lines 424-447): FastAPI
parses the body as `SlaRuleCreate` (422 on validation failure, before the
endpoint body runs); then `create_robot_sla` calls `create_sla_rule`, mapping a
`ValueError` through `valueErrorStatus` and answering 201 with the rule on
success. -/
def postRobotSla (robotExists existingRule : Bool)
    (expectedRunEvery : Option Int) (expectedDailyTime : Option String) :
    Nat × Option (Option Int × Option String) :=
  match slaRuleCreateParse expectedRunEvery expectedDailyTime with
  | none => (422, none)
  | some payload =>
    match createSlaRule robotExists existingRule payload with
    | .error msg => (valueErrorStatus msg, none)
    | .ok r => (201, some r)

end Sla

end Enesa

namespace Enesa

/-- C9 counterexample: a request with *both* `expected_run_every_minutes` and
`expected_daily_time` set passes the pydantic validation and is accepted with
201 — it is rejected neither at parsing nor by `_validate_sla_payload`. -/
theorem c9_counterexample :
    Sla.postRobotSla true false (some 5) (some "08:00") = (201, some (some 5, some "08:00"))
      ∧ (201 : Nat) ≠ 400 ∧ (201 : Nat) ≠ 422 := by
  exact ⟨by decide, by decide, by decide⟩

/-- C9 amended: an SlaRule expectation must be *at least* one of the two
fields, and the exactly-one reading fails on both sides: a request with
neither field (truthily) set is rejected by `SlaRuleCreate`'s pydantic
validator at body parsing — HTTP 422, before the endpoint body runs, so
`create_sla_rule` can never receive a neither-set payload and its
InvalidSla/400 path is unreachable — while a request with both fields set
(each satisfying its field constraint) is accepted with 201, not rejected. -/
theorem c9_exactly_one_not_enforced (erm : Option Int) (edt : Option String)
    (robotExists existingRule : Bool)
    (hne : Sla.pyTruthyInt erm = false) (hnd : Sla.pyTruthyStr edt = false) :
    Sla.postRobotSla robotExists existingRule erm edt = (422, none)
      ∧ (∀ payload : Sla.SlaRuleCreate,
          ¬ (Sla.pyTruthyInt payload.expected_run_every_minutes = false
              ∧ Sla.pyTruthyStr payload.expected_daily_time = false))
      ∧ (∀ (n : Int) (s : String) (hm : Nat × Nat),
          1 ≤ n → n ≤ 10080 → Sla.timePatternMatches s.toList = true →
          Sla.parseHHMM s = some hm →
          Sla.postRobotSla true false (some n) (some s) = (201, some (some n, some s))) := by
  refine ⟨?_, ?_, ?_⟩
  · have hv : Sla.slaRuleCreateValid erm edt = false := by
      unfold Sla.slaRuleCreateValid
      rw [hne, hnd]
      simp
    have hpar : Sla.slaRuleCreateParse erm edt = none := by
      unfold Sla.slaRuleCreateParse
      rw [dif_neg]
      intro h
      rw [hv] at h
      exact Bool.false_ne_true h
    unfold Sla.postRobotSla
    rw [hpar]
  · intro payload ⟨h1, h2⟩
    have hv := payload.valid
    unfold Sla.slaRuleCreateValid at hv
    rw [h1, h2] at hv
    simp at hv
  · intro n s hm h1n h2n hpat hs
    have hn0 : Sla.pyTruthyInt (some n) = true := by
      have hne0 : ¬ n = 0 := by omega
      simp [Sla.pyTruthyInt, hne0]
    have hsne : s ≠ "" := by
      intro h
      rw [h] at hpat
      exact absurd hpat (by decide)
    have hts : Sla.pyTruthyStr (some s) = true := by
      simp [Sla.pyTruthyStr, hsne]
    have hpat' : Sla.timePatternMatches s.data = true := hpat
    have hvalid : Sla.slaRuleCreateValid (some n) (some s) = true := by
      unfold Sla.slaRuleCreateValid
      simp [h1n, h2n, hpat, hpat', hn0, hts]
    have hval2 : Sla.validateSlaPayload (some n) (some s) = .ok () := by
      unfold Sla.validateSlaPayload
      simp [hn0, hts, hs]
    unfold Sla.postRobotSla Sla.slaRuleCreateParse
    rw [dif_pos hvalid]
    unfold Sla.createSlaRule
    simp [hval2]

/-- Witness for `c9_exactly_one_not_enforced`: a neither-set body is answered
422; a both-set body with a valid interval and time is answered 201 with the
rule. -/
theorem c9_witness :
    Sla.postRobotSla true false none none = (422, none)
      ∧ Sla.postRobotSla true false (some 5) (some "08:00")
          = (201, some (some 5, some "08:00")) := by
  obtain ⟨h1, h2, h3⟩ := c9_exactly_one_not_enforced none none true false rfl rfl
  exact ⟨h1, h3 5 "08:00" (8, 0) (by decide) (by decide) (by decide) (by decide)⟩

end Enesa

namespace Enesa

/-- C1: For every run processed by the worker, finalization assigns the terminal
status by the spec's exact case order: canceled ⇒ CANCELED with null error and
`canceled_at` set; else timed out ⇒ FAILED with "TIMEOUT"; else exit code 0 ⇒
SUCCESS with null error; else FAILED with "Process returned exit code <n>". -/
theorem c1_finalization_case_order (canceled timedOut : Bool) (returnCode finishedAt : Int) :
    Exec.finalizeRun canceled timedOut returnCode finishedAt
      = Exec.specFinalizeRun canceled timedOut returnCode finishedAt := by
  cases canceled <;> cases timedOut <;>
    simp only [Exec.finalizeRun, Exec.specFinalizeRun] <;>
    by_cases h : returnCode = 0 <;> simp [h]

end Enesa
